import Mathlib

/-!
Verification development for the LLM Council front-end (Omnidesk_ai).

The code under scrutiny is `src/frontend/src/api.js`, which contains three
concatenated modules: the REST/SSE client (`api`, with `sendMessageStream`),
the `App` component variant, and the `Dashboard` component variant.  The
heart is the streaming event reducer `handleStreamEvent` (Dashboard variant
at lines 756-918, App variant at lines 369-501): given the currently
displayed `ConversationView`, a target conversation id and a stream event,
it produces the next `ConversationView` by mutating at most the trailing
assistant message.

JavaScript values are embedded as follows: an object field that may be
absent (`undefined`) or `null` becomes an `Option`; JS string truthiness
(`""`, `null`, `undefined` falsy) is modelled by `jsOrStr`; object spread
`\x7b...o, f: v\x7d` over a possibly-null `o` becomes `Option.getD` of a record
with all-`none` fields followed by a field update.  React's
`setCurrentConversation(prev => ...)` updaters copy the messages array and
mutate its last element in place; the net value-level effect is "replace
the last element", which is what the embedding computes.
-/

/-- A stage payload as used by the reducer: the backend's `data` objects are
opaque except for the `response` and `model` fields, which are the only
fields the reducer ever reads (`chat_chunk` reads `stage3?.response`,
`chat_complete` reads `data.model`). -/
structure StageData where
  response : Option String
  model : Option String
deriving DecidableEq, Repr

/-- The `metadata` descriptor `{mode, model}` attached to a message. -/
structure Metadata where
  mode : Option String
  model : Option String
deriving DecidableEq, Repr

/-- The `loading` tri-flag record `{stage1, stage2, stage3}`. -/
structure LoadingFlags where
  stage1 : Bool
  stage2 : Bool
  stage3 : Bool
deriving DecidableEq, Repr

/-- A message of a conversation as held in React state.  `content` is absent
on the assistant placeholder and set by `chat_chunk`; `stage1..3`,
`metadata` and `loading` start as `null` or a record per the optimistic
placeholder in `handleSendMessage`. -/
structure MessageView where
  role : String
  content : Option String
  stage1 : Option StageData
  stage2 : Option StageData
  stage3 : Option StageData
  metadata : Option Metadata
  loading : Option LoadingFlags
deriving DecidableEq, Repr

/-- The displayed conversation: an id and its ordered message list. -/
structure ConversationView where
  id : String
  messages : List MessageView
deriving DecidableEq, Repr

/-- The discriminator strings of the reducer's `switch`, plus `unknown` for
the `default` branch. -/
inductive EventType where
  | stage1_start | stage1_complete
  | stage2_start | stage2_complete
  | stage3_start | stage3_complete
  | chat_start | chat_chunk | chat_complete
  | image_start | image_complete
  | title_complete | complete | error
  | unknown
deriving DecidableEq, Repr

/-- A decoded SSE event object `{type, data?, metadata?, model?, chunk?,
message?}` as handed to `onEvent(event.type, event)`. -/
structure StreamEvent where
  type : EventType
  data : Option StageData
  metadata : Option Metadata
  model : Option String
  chunk : Option String
  message : Option String
deriving DecidableEq, Repr

/-- JS `a || b` for an optional string `a`: `undefined`, `null` and `""` are
falsy, so the fallback `b` is used exactly then. -/
def jsOrStr (a : Option String) (b : String) : String :=
  match a with
  | some s => if s = "" then b else s
  | none => b

/-- JS object spread of a possibly-null stage payload: `\x7b...null\x7d` is `\x7b\x7d`,
i.e. all fields absent. -/
def spreadStage (s : Option StageData) : StageData :=
  s.getD { response := none, model := none }

/-- JS object spread of a possibly-null metadata object. -/
def spreadMeta (m : Option Metadata) : Metadata :=
  m.getD { mode := none, model := none }

/-- The shared shape of every mutating `case` of `handleStreamEvent`:
return `prev` unchanged when the id guard `prev?.id !== conversationId`
fires, copy the messages array, and when the last message exists and
passes the case's guard, replace it by its mutation. -/
def mutateLast (conversationId : String) (g : MessageView → Bool)
    (f : MessageView → MessageView) (prev : ConversationView) : ConversationView :=
  if prev.id ≠ conversationId then prev
  else
    match prev.messages.getLast? with
    | none => prev
    | some lastMsg =>
      if g lastMsg then
        { prev with messages := prev.messages.dropLast ++ [f lastMsg] }
      else prev

/-- Guard `lastMsg.role === 'assistant'`. -/
def isAssistant (m : MessageView) : Bool :=
  m.role = "assistant"

/-- Guard `lastMsg.role === 'assistant' && lastMsg.loading` (a loading
record object is truthy, `null` is falsy). -/
def isAssistantLoading (m : MessageView) : Bool :=
  m.role = "assistant" && m.loading.isSome

/-- The streaming event reducer, Dashboard variant
(`handleStreamEvent`, src/frontend/src/api.js lines 756-918).  Cases that
only log or only trigger collaborator side effects (`image_start`,
`title_complete`, `complete`, `error`, `default`) leave the conversation
state unchanged. -/
def handleStreamEvent (conversationId : String) (eventType : EventType)
    (event : StreamEvent) (prev : ConversationView) : ConversationView :=
  match eventType with
  | .stage1_start =>
    mutateLast conversationId isAssistantLoading
      (fun m => { m with loading := m.loading.map (fun l => { l with stage1 := true }) }) prev
  | .stage1_complete =>
    mutateLast conversationId isAssistant
      (fun m => { m with
        stage1 := event.data,
        loading := m.loading.map (fun l => { l with stage1 := false }) }) prev
  | .stage2_start =>
    mutateLast conversationId isAssistantLoading
      (fun m => { m with loading := m.loading.map (fun l => { l with stage2 := true }) }) prev
  | .stage2_complete =>
    mutateLast conversationId isAssistant
      (fun m => { m with
        stage2 := event.data,
        metadata := event.metadata,
        loading := m.loading.map (fun l => { l with stage2 := false }) }) prev
  | .stage3_start =>
    mutateLast conversationId isAssistantLoading
      (fun m => { m with loading := m.loading.map (fun l => { l with stage3 := true }) }) prev
  | .stage3_complete =>
    mutateLast conversationId isAssistant
      (fun m => { m with
        stage3 := event.data,
        loading := m.loading.map (fun l => { l with stage3 := false }) }) prev
  | .chat_start =>
    mutateLast conversationId isAssistant
      (fun m => { m with
        metadata := some { spreadMeta m.metadata with mode := some "chat", model := event.model } }) prev
  | .chat_chunk =>
    mutateLast conversationId isAssistant
      (fun m =>
        let currentContent := jsOrStr (m.stage3.bind StageData.response) (jsOrStr m.content "")
        let newContent := currentContent ++ jsOrStr event.chunk ""
        { m with
          stage3 := some { spreadStage m.stage3 with response := some newContent },
          content := some newContent,
          metadata := some { spreadMeta m.metadata with mode := some "chat" } }) prev
  | .chat_complete =>
    mutateLast conversationId isAssistant
      (fun m => { m with
        stage3 := event.data,
        metadata := some { mode := some "chat", model := event.data.bind StageData.model } }) prev
  | .image_complete =>
    mutateLast conversationId isAssistant
      (fun m => { m with
        stage3 := event.data,
        metadata := some { mode := some "image", model := none } }) prev
  | _ => prev

/-- The streaming event reducer, App variant (`handleStreamEvent`,
src/frontend/src/api.js lines 369-501).  It differs from the Dashboard
variant only in that `chat_start` merely logs (no state mutation) and that
there is no `chat_chunk` case at all (such an event falls through to the
logging `default` branch). -/
def handleStreamEventApp (conversationId : String) (eventType : EventType)
    (event : StreamEvent) (prev : ConversationView) : ConversationView :=
  match eventType with
  | .chat_start => prev
  | .chat_chunk => prev
  | .stage1_start | .stage1_complete | .stage2_start | .stage2_complete
  | .stage3_start | .stage3_complete | .chat_complete | .image_complete =>
    handleStreamEvent conversationId eventType event prev
  | _ => prev

/-- The stream loop of `sendMessageStream` dispatches each decoded event as
`onEvent(event.type, event)`; in the components the callback is
`handleStreamEvent(conversationId, eventType, event)`. -/
def dispatch (conversationId : String) (event : StreamEvent)
    (prev : ConversationView) : ConversationView :=
  handleStreamEvent conversationId event.type event prev

/-- Applying a whole sequence of stream events in arrival order. -/
def runEvents (conversationId : String) (events : List StreamEvent)
    (c : ConversationView) : ConversationView :=
  events.foldl (fun acc e => dispatch conversationId e acc) c

/-- The optimistic user message `{ role: 'user', content }` inserted by
`handleSendMessage`. -/
def userMessage (content : String) : MessageView :=
  { role := "user", content := some content,
    stage1 := none, stage2 := none, stage3 := none,
    metadata := none, loading := none }

/-- The optimistic assistant placeholder inserted by the Dashboard
`handleSendMessage` (lines 1072-1082): all stages null, metadata
`{mode: options.mode || 'chat', model: options.model}`, loading all-false. -/
def assistantPlaceholder (mode : String) (model : Option String) : MessageView :=
  { role := "assistant", content := none,
    stage1 := none, stage2 := none, stage3 := none,
    metadata := some { mode := some mode, model := model },
    loading := some { stage1 := false, stage2 := false, stage3 := false } }

/-- The state evolution of the Dashboard `handleSendMessage` main path
(lines 1062-1109) when `api.sendMessageStream` throws before delivering any
event: the user message and the assistant placeholder are appended
optimistically, then the catch block truncates with
`prev.messages.slice(0, -2)`. -/
def handleSendMessageTransportFailure (content : String) (mode : String)
    (model : Option String) (c : ConversationView) : ConversationView :=
  let c1 : ConversationView := { c with messages := c.messages ++ [userMessage content] }
  let c2 : ConversationView := { c1 with messages := c1.messages ++ [assistantPlaceholder mode model] }
  { c2 with messages := c2.messages.take (c2.messages.length - 2) }

/-- The prefix test `line.startsWith('data: ')`, modelled on the string's
character list (the prefix is ASCII, so byte and character indices
coincide). -/
def startsWithData (line : String) : Bool :=
  "data: ".data.isPrefixOf line.data

/-- The payload extraction `line.slice(6)` (dropping the 6 characters of
`data: `), modelled on the string's character list. -/
def payloadOf (line : String) : String :=
  String.mk (line.data.drop 6)

/-- The inner line loop of `sendMessageStream` (lines 140-150): for each
line carrying a `data: ` prefix, the payload is decoded by the external
JSON decoder `parse` (JSON.parse); a successful decode dispatches one event
to `onEvent`, a failed decode logs one diagnostic (`console.error`) and
moves on.  Returns the dispatched events in order and the diagnostic
count. -/
def processLines (parse : String → Option StreamEvent) :
    List String → List StreamEvent × Nat
  | [] => ([], 0)
  | line :: rest =>
    let acc := processLines parse rest
    if startsWithData line then
      match parse (payloadOf line) with
      | some ev => (ev :: acc.1, acc.2)
      | none => (acc.1, acc.2 + 1)
    else acc

/-- The effect of one dispatched event on the trailing message alone, with
each case's guard inlined.  `dispatch_concat` below proves this describes
`handleStreamEvent` exactly on a conversation whose id matches the target. -/
def msgStep (event : StreamEvent) (m : MessageView) : MessageView :=
  match event.type with
  | .stage1_start =>
    if isAssistantLoading m then
      { m with loading := m.loading.map (fun l => { l with stage1 := true }) }
    else m
  | .stage1_complete =>
    if isAssistant m then
      { m with
        stage1 := event.data,
        loading := m.loading.map (fun l => { l with stage1 := false }) }
    else m
  | .stage2_start =>
    if isAssistantLoading m then
      { m with loading := m.loading.map (fun l => { l with stage2 := true }) }
    else m
  | .stage2_complete =>
    if isAssistant m then
      { m with
        stage2 := event.data,
        metadata := event.metadata,
        loading := m.loading.map (fun l => { l with stage2 := false }) }
    else m
  | .stage3_start =>
    if isAssistantLoading m then
      { m with loading := m.loading.map (fun l => { l with stage3 := true }) }
    else m
  | .stage3_complete =>
    if isAssistant m then
      { m with
        stage3 := event.data,
        loading := m.loading.map (fun l => { l with stage3 := false }) }
    else m
  | .chat_start =>
    if isAssistant m then
      { m with metadata := some { spreadMeta m.metadata with mode := some "chat", model := event.model } }
    else m
  | .chat_chunk =>
    if isAssistant m then
      let currentContent := jsOrStr (m.stage3.bind StageData.response) (jsOrStr m.content "")
      let newContent := currentContent ++ jsOrStr event.chunk ""
      { m with
        stage3 := some { spreadStage m.stage3 with response := some newContent },
        content := some newContent,
        metadata := some { spreadMeta m.metadata with mode := some "chat" } }
    else m
  | .chat_complete =>
    if isAssistant m then
      { m with
        stage3 := event.data,
        metadata := some { mode := some "chat", model := event.data.bind StageData.model } }
    else m
  | .image_complete =>
    if isAssistant m then
      { m with
        stage3 := event.data,
        metadata := some { mode := some "image", model := none } }
    else m
  | _ => m

/-- Iterating `msgStep` over a sequence of events. -/
def msgRun (events : List StreamEvent) (m : MessageView) : MessageView :=
  events.foldl (fun acc e => msgStep e acc) m

theorem mutateLast_concat (cid : String) (g : MessageView → Bool)
    (f : MessageView → MessageView) (ms : List MessageView) (m : MessageView) :
    mutateLast cid g f ⟨cid, ms ++ [m]⟩ = ⟨cid, ms ++ [if g m then f m else m]⟩ := by
  simp only [mutateLast, ne_eq, not_true_eq_false, if_false, ite_not]
  simp [List.getLast?_concat, List.dropLast_concat]
  split <;> simp

theorem dispatch_concat (cid : String) (e : StreamEvent) (ms : List MessageView)
    (m : MessageView) :
    dispatch cid e ⟨cid, ms ++ [m]⟩ = ⟨cid, ms ++ [msgStep e m]⟩ := by
  cases h : e.type <;>
    simp [dispatch, handleStreamEvent, msgStep, h, mutateLast_concat]

theorem runEvents_concat (cid : String) (events : List StreamEvent)
    (ms : List MessageView) (m : MessageView) :
    runEvents cid events ⟨cid, ms ++ [m]⟩ = ⟨cid, ms ++ [msgRun events m]⟩ := by
  induction events generalizing m with
  | nil => rfl
  | cons e rest ih =>
    simp only [runEvents, List.foldl_cons] at *
    rw [dispatch_concat]
    exact ih (msgStep e m)

theorem msgStep_role (e : StreamEvent) (m : MessageView) :
    (msgStep e m).role = m.role := by
  cases h : e.type <;> simp only [msgStep, h] <;> split <;> rfl

/-- A `chat_chunk` wire event `{type:'chat_chunk', chunk}`. -/
def chatChunkEvent (chunk : String) : StreamEvent :=
  { type := .chat_chunk, data := none, metadata := none, model := none,
    chunk := some chunk, message := none }

/-- A `chat_start` wire event `{type:'chat_start', model}`. -/
def chatStartEvent (model : Option String) : StreamEvent :=
  { type := .chat_start, data := none, metadata := none, model := model,
    chunk := none, message := none }

/-- A `chat_complete` wire event `{type:'chat_complete', data}`. -/
def chatCompleteEvent (data : StageData) : StreamEvent :=
  { type := .chat_complete, data := some data, metadata := none, model := none,
    chunk := none, message := none }

/-- A bare `{type}` wire event (stage starts, `complete`, `image_start`). -/
def bareEvent (t : EventType) : StreamEvent :=
  { type := t, data := none, metadata := none, model := none,
    chunk := none, message := none }

/-- A stage-completion wire event `{type, data, metadata?}`. -/
def stageCompleteEvent (t : EventType) (data : StageData) (meta : Option Metadata) : StreamEvent :=
  { type := t, data := some data, metadata := meta, chunk := none,
    model := none, message := none }

/-- The event types whose reducer case mutates message state. -/
def mutatingEventTypes : List EventType :=
  [.stage1_start, .stage1_complete, .stage2_start, .stage2_complete,
   .stage3_start, .stage3_complete, .chat_start, .chat_chunk, .chat_complete,
   .image_complete]

/-- C9: an `error` stream event never mutates the `ConversationView`: the
reducer's `error` case only logs, so the whole conversation state before
and after the event is equal, whatever partial state the trailing
assistant message had reached. -/
theorem error_event_leaves_conversation_unchanged (conversationId : String)
    (event : StreamEvent) (c : ConversationView) :
    handleStreamEvent conversationId EventType.error event c = c := rfl

/-- C2: for every message-mutating event type, an event whose target
conversation id differs from the displayed conversation's id leaves the
displayed `ConversationView` entirely unchanged, in both the Dashboard and
the App variant of the reducer. -/
theorem mismatched_id_event_dropped (conversationId : String) (t : EventType)
    (event : StreamEvent) (c : ConversationView)
    (hmut : t ∈ mutatingEventTypes) (hid : c.id ≠ conversationId) :
    handleStreamEvent conversationId t event c = c ∧
    handleStreamEventApp conversationId t event c = c := by
  cases t <;>
    simp_all [mutatingEventTypes, handleStreamEvent, handleStreamEventApp, mutateLast]

/-- Witness for C2 at the spec's own instance: displayed conversation `A`,
event targeting `B`. -/
theorem mismatched_id_event_dropped_witness :
    handleStreamEvent "B" EventType.chat_chunk (chatChunkEvent "x") ⟨"A", []⟩ = ⟨"A", []⟩ ∧
    handleStreamEventApp "B" EventType.chat_chunk (chatChunkEvent "x") ⟨"A", []⟩ = ⟨"A", []⟩ :=
  mismatched_id_event_dropped "B" EventType.chat_chunk (chatChunkEvent "x") ⟨"A", []⟩
    (by decide) (by decide)

/-- Concatenation of chunk payloads in arrival order (the reference value
the accumulated `content` is compared against). -/
def concatChunks (chunks : List String) : String :=
  chunks.foldl (fun a b => a ++ b) ""

/-- The trailing assistant message after at least one `chat_chunk` has been
applied to a fresh Dashboard placeholder: `content` and `stage3.response`
both hold the accumulated text and `metadata.mode` is forced to `chat`. -/
def chunkedMsg (model : Option String) (acc : String) : MessageView :=
  { role := "assistant", content := some acc,
    stage1 := none, stage2 := none,
    stage3 := some { response := some acc, model := none },
    metadata := some { mode := some "chat", model := model },
    loading := some { stage1 := false, stage2 := false, stage3 := false } }

theorem jsOrStr_none (b : String) : jsOrStr none b = b := rfl

theorem jsOrStr_some_self (s : String) : jsOrStr (some s) "" = s := by
  by_cases h : s = "" <;> simp [jsOrStr, h]

theorem jsOrStr_some_absorb (a : String) : jsOrStr (some a) a = a := by
  by_cases h : a = "" <;> simp [jsOrStr, h]

theorem concatChunks_foldl (l : List String) (a : String) :
    l.foldl (fun x y => x ++ y) a = a ++ concatChunks l := by
  induction l generalizing a with
  | nil => simp [concatChunks]
  | cons x xs ih =>
    simp only [concatChunks, List.foldl_cons] at *
    rw [ih (a ++ x), ih ("" ++ x)]
    simp [String.append_assoc]

theorem concatChunks_cons (c : String) (cs : List String) :
    concatChunks (c :: cs) = c ++ concatChunks cs := by
  simp only [concatChunks, List.foldl_cons]
  rw [concatChunks_foldl cs ("" ++ c)]
  simp only [concatChunks]
  simp

theorem msgStep_chunk_placeholder (mode : String) (model : Option String) (s : String) :
    msgStep (chatChunkEvent s) (assistantPlaceholder mode model) = chunkedMsg model s := by
  simp [msgStep, chatChunkEvent, assistantPlaceholder, chunkedMsg, isAssistant,
    jsOrStr_none, jsOrStr_some_self, spreadStage, spreadMeta]

theorem msgStep_chunk_chunked (model : Option String) (acc s : String) :
    msgStep (chatChunkEvent s) (chunkedMsg model acc) = chunkedMsg model (acc ++ s) := by
  simp [msgStep, chatChunkEvent, chunkedMsg, isAssistant,
    jsOrStr_some_absorb, jsOrStr_some_self, spreadStage, spreadMeta]

theorem msgRun_chunks_chunked (model : Option String) (chunks : List String) (acc : String) :
    msgRun (chunks.map chatChunkEvent) (chunkedMsg model acc)
      = chunkedMsg model (acc ++ concatChunks chunks) := by
  induction chunks generalizing acc with
  | nil => simp [msgRun, concatChunks]
  | cons c cs ih =>
    simp only [List.map_cons, msgRun, List.foldl_cons]
    rw [msgStep_chunk_chunked]
    have := ih (acc ++ c)
    simp only [msgRun] at this
    rw [this, concatChunks_cons, String.append_assoc]

theorem msgRun_chunks_placeholder (mode : String) (model : Option String)
    (chunks : List String) (hne : chunks ≠ []) :
    msgRun (chunks.map chatChunkEvent) (assistantPlaceholder mode model)
      = chunkedMsg model (concatChunks chunks) := by
  cases chunks with
  | nil => exact absurd rfl hne
  | cons c cs =>
    simp only [List.map_cons, msgRun, List.foldl_cons]
    rw [msgStep_chunk_placeholder]
    have := msgRun_chunks_chunked model cs c
    simp only [msgRun] at this
    rw [this, concatChunks_cons]

/-- The conversation reached by feeding a sequence of `chat_chunk` events,
in order, to a conversation whose trailing message is the Dashboard
assistant placeholder (the state right after submitting a request). -/
def chatChunkRun (cid : String) (ms : List MessageView) (mode : String)
    (model : Option String) (chunks : List String) : ConversationView :=
  runEvents cid (chunks.map chatChunkEvent)
    ⟨cid, ms ++ [assistantPlaceholder mode model]⟩

theorem chatChunkRun_eq (cid : String) (ms : List MessageView) (mode : String)
    (model : Option String) (chunks : List String) (hne : chunks ≠ []) :
    chatChunkRun cid ms mode model chunks
      = ⟨cid, ms ++ [chunkedMsg model (concatChunks chunks)]⟩ := by
  rw [chatChunkRun, runEvents_concat, msgRun_chunks_placeholder mode model chunks hne]

/-- C1: feeding `chat_chunk` events in order to the displayed conversation
(trailing assistant placeholder) accumulates `content` as the concatenation
of the chunk payloads in arrival order; after each chunk `stage3.response`
equals `content` and `metadata.mode` is `chat`; in particular the chunks
`Hello`, `\x20`, `world` yield `Hello world` and the reverse order yields
`world Hello`. -/
theorem chat_chunk_order_sensitive_concatenation (cid : String)
    (ms : List MessageView) (mode : String) (model : Option String)
    (chunks : List String) (hne : chunks ≠ []) :
    ((chatChunkRun cid ms mode model chunks).messages.getLast?.bind MessageView.content
        = some (concatChunks chunks))
    ∧ (∀ k, 1 ≤ k → k ≤ chunks.length →
        ((chatChunkRun cid ms mode model (chunks.take k)).messages.getLast?.bind
            MessageView.content = some (concatChunks (chunks.take k)))
        ∧ ((chatChunkRun cid ms mode model (chunks.take k)).messages.getLast?.bind
            (fun m => m.stage3.bind StageData.response) = some (concatChunks (chunks.take k)))
        ∧ ((chatChunkRun cid ms mode model (chunks.take k)).messages.getLast?.bind
            (fun m => m.metadata.bind Metadata.mode) = some "chat"))
    ∧ ((chatChunkRun cid ms mode model ["Hello", " ", "world"]).messages.getLast?.bind
        MessageView.content = some "Hello world")
    ∧ ((chatChunkRun cid ms mode model ["world", " ", "Hello"]).messages.getLast?.bind
        MessageView.content = some "world Hello") := by
  refine ⟨?_, ?_, ?_, ?_⟩
  · rw [chatChunkRun_eq cid ms mode model chunks hne]
    simp [chunkedMsg, List.getLast?_concat]
  · intro k hk1 hk2
    have htake : chunks.take k ≠ [] := by
      intro h
      rcases List.take_eq_nil_iff.mp h with h0 | h0
      · omega
      · exact hne h0
    rw [chatChunkRun_eq cid ms mode model (chunks.take k) htake]
    refine ⟨?_, ?_, ?_⟩ <;> simp [chunkedMsg, List.getLast?_concat]
  · rw [chatChunkRun_eq cid ms mode model ["Hello", " ", "world"] (by simp)]
    simp [chunkedMsg, List.getLast?_concat]
    rfl
  · rw [chatChunkRun_eq cid ms mode model ["world", " ", "Hello"] (by simp)]
    simp [chunkedMsg, List.getLast?_concat]
    rfl

/-- Witness for C1 at the spec's own instance. -/
theorem chat_chunk_order_sensitive_concatenation_witness :
    (chatChunkRun "A" [] "chat" none ["Hello", " ", "world"]).messages.getLast?.bind
      MessageView.content = some (concatChunks ["Hello", " ", "world"]) :=
  (chat_chunk_order_sensitive_concatenation "A" [] "chat" none
    ["Hello", " ", "world"] (by decide)).1

theorem mutateLast_id_ne (cid : String) (g : MessageView → Bool)
    (f : MessageView → MessageView) (c : ConversationView) (h : c.id ≠ cid) :
    mutateLast cid g f c = c := by
  simp [mutateLast, h]

theorem handleStreamEvent_id_ne (cid : String) (t : EventType) (e : StreamEvent)
    (c : ConversationView) (h : c.id ≠ cid) :
    handleStreamEvent cid t e c = c := by
  cases t <;> simp [handleStreamEvent, mutateLast_id_ne _ _ _ _ h]

theorem mutateLast_nil (cid : String) (g : MessageView → Bool)
    (f : MessageView → MessageView) (i : String) :
    mutateLast cid g f ⟨i, []⟩ = ⟨i, []⟩ := by
  by_cases h : i = cid <;> simp [mutateLast, h]

theorem handleStreamEvent_nil (cid : String) (t : EventType) (e : StreamEvent)
    (i : String) :
    handleStreamEvent cid t e ⟨i, []⟩ = ⟨i, []⟩ := by
  cases t <;> simp [handleStreamEvent, mutateLast_nil]

theorem msgStep_chat_complete (d : StageData) (m : MessageView)
    (h : m.role = "assistant") :
    msgStep (chatCompleteEvent d) m
      = { m with
          stage3 := some d,
          metadata := some { mode := some "chat", model := d.model } } := by
  simp [msgStep, chatCompleteEvent, isAssistant, h]

/-- The spec's terminal-event exclusivity run:
`chat_start`, `chat_chunk("A")`, `chat_chunk("B")`,
`chat_complete({response:"AB final", model:"m"})`. -/
def chatTerminalRun (model : Option String) : List StreamEvent :=
  [chatStartEvent model, chatChunkEvent "A", chatChunkEvent "B",
   chatCompleteEvent { response := some "AB final", model := some "m" }]

/-- C3: running `chat_start`, two chunks and `chat_complete` against the
displayed conversation ends with `stage3` equal to the `chat_complete`
payload (the complete payload overrides the accumulated chunks) and
`metadata = {mode:'chat', model:'m'}`. -/
theorem chat_complete_overrides_chunks (cid : String) (ms : List MessageView)
    (m : MessageView) (model : Option String) (h : m.role = "assistant") :
    ((runEvents cid (chatTerminalRun model) ⟨cid, ms ++ [m]⟩).messages.getLast?.map
        MessageView.stage3
        = some (some { response := some "AB final", model := some "m" }))
    ∧ ((runEvents cid (chatTerminalRun model) ⟨cid, ms ++ [m]⟩).messages.getLast?.map
        MessageView.metadata
        = some (some { mode := some "chat", model := some "m" })) := by
  rw [runEvents_concat]
  simp only [msgRun, chatTerminalRun, List.foldl_cons, List.foldl_nil]
  rw [msgStep_chat_complete _ _ (by simp [msgStep_role, h])]
  simp [List.getLast?_concat]

/-- Witness for C3 starting from the Dashboard placeholder. -/
theorem chat_complete_overrides_chunks_witness :
    ((runEvents "A" (chatTerminalRun none)
        ⟨"A", [] ++ [assistantPlaceholder "chat" none]⟩).messages.getLast?.map
        MessageView.stage3
        = some (some { response := some "AB final", model := some "m" }))
    ∧ ((runEvents "A" (chatTerminalRun none)
        ⟨"A", [] ++ [assistantPlaceholder "chat" none]⟩).messages.getLast?.map
        MessageView.metadata
        = some (some { mode := some "chat", model := some "m" })) :=
  chat_complete_overrides_chunks "A" [] (assistantPlaceholder "chat" none) none rfl

theorem msgStep_stage1_idem (d : StageData) (meta : Option Metadata) (m : MessageView) :
    msgStep (stageCompleteEvent EventType.stage1_complete d meta)
        (msgStep (stageCompleteEvent EventType.stage1_complete d meta) m)
      = msgStep (stageCompleteEvent EventType.stage1_complete d meta) m := by
  by_cases h : m.role = "assistant"
  · cases hl : m.loading <;>
      simp [msgStep, stageCompleteEvent, isAssistant, h, hl]
  · simp [msgStep, stageCompleteEvent, isAssistant, h]

/-- C4: applying the same `stage1_complete` event twice is last-write-wins
replacement: `stage1` equals the event's payload after the first and after
the second application, and the second application is a no-op on the whole
conversation state (for every conversation whatsoever). -/
theorem stage1_complete_idempotent (cid : String) (d : StageData) (meta : Option Metadata) :
    (∀ c : ConversationView,
        dispatch cid (stageCompleteEvent EventType.stage1_complete d meta)
            (dispatch cid (stageCompleteEvent EventType.stage1_complete d meta) c)
          = dispatch cid (stageCompleteEvent EventType.stage1_complete d meta) c)
    ∧ (∀ (ms : List MessageView) (m : MessageView), m.role = "assistant" →
        ((dispatch cid (stageCompleteEvent EventType.stage1_complete d meta)
            ⟨cid, ms ++ [m]⟩).messages.getLast?.map MessageView.stage1
          = some (some d))
        ∧ ((dispatch cid (stageCompleteEvent EventType.stage1_complete d meta)
            (dispatch cid (stageCompleteEvent EventType.stage1_complete d meta)
              ⟨cid, ms ++ [m]⟩)).messages.getLast?.map MessageView.stage1
          = some (some d))) := by
  constructor
  · intro c
    by_cases hid : c.id = cid
    · obtain ⟨i, msgs⟩ := c
      simp only at hid
      subst hid
      rcases List.eq_nil_or_concat msgs with rfl | ⟨ms, m, rfl⟩
      · simp [dispatch, handleStreamEvent_nil]
      · simp only [List.concat_eq_append]
        rw [dispatch_concat, dispatch_concat, msgStep_stage1_idem]
    · rw [show dispatch cid (stageCompleteEvent EventType.stage1_complete d meta) c = c from
        handleStreamEvent_id_ne cid _ _ c hid]
      exact handleStreamEvent_id_ne cid _ _ c hid
  · intro ms m h
    constructor
    · rw [dispatch_concat]
      simp [List.getLast?_concat, msgStep, stageCompleteEvent, isAssistant, h]
    · rw [dispatch_concat, dispatch_concat, msgStep_stage1_idem]
      simp [List.getLast?_concat, msgStep, stageCompleteEvent, isAssistant, h]

/-- Witness for C4 on a concrete conversation. -/
theorem stage1_complete_idempotent_witness :
    ((dispatch "A" (stageCompleteEvent EventType.stage1_complete
        { response := some "r", model := none } none)
        ⟨"A", [] ++ [assistantPlaceholder "council" none]⟩).messages.getLast?.map
      MessageView.stage1
      = some (some { response := some "r", model := none })) :=
  ((stage1_complete_idempotent "A" { response := some "r", model := none } none).2
    [] (assistantPlaceholder "council" none) rfl).1

/-- C5: if the transport call throws before any event is delivered, the
catch block's `slice(0, -2)` removes exactly the two optimistically
inserted placeholder messages, restoring the original message list (and in
particular the original message count N). -/
theorem transport_failure_rollback (content : String) (mode : String)
    (model : Option String) (c : ConversationView) :
    (handleSendMessageTransportFailure content mode model c).messages = c.messages
    ∧ (handleSendMessageTransportFailure content mode model c).messages.length
        = c.messages.length := by
  have h : (handleSendMessageTransportFailure content mode model c).messages
      = c.messages := by
    simp only [handleSendMessageTransportFailure, List.append_assoc,
      List.length_append, List.length_cons, List.length_nil]
    have h2 : c.messages.length + (0 + 1 + 1) - 2 = c.messages.length := by omega
    rw [h2]
    exact List.take_left _ _
  exact ⟨h, by rw [h]⟩

/-- C6: a `data: `-prefixed line whose payload the JSON decoder rejects is
skipped (it contributes no dispatched event), emits exactly one diagnostic,
and leaves the processing of every other line of the stream unaffected,
wherever in the stream it occurs. -/
theorem malformed_line_skipped (parse : String → Option StreamEvent)
    (pre post : List String) (bad : String)
    (hdata : startsWithData bad = true)
    (hparse : parse (payloadOf bad) = none) :
    (processLines parse (pre ++ bad :: post)).1 = (processLines parse (pre ++ post)).1
    ∧ (processLines parse (pre ++ bad :: post)).2
        = (processLines parse (pre ++ post)).2 + 1 := by
  induction pre with
  | nil => simp [processLines, hdata, hparse]
  | cons l ls ih =>
    rcases ih with ⟨ih1, ih2⟩
    by_cases hl : startsWithData l = true
    · cases hp : parse (payloadOf l) <;>
        simp [processLines, hl, hp, ih1, ih2]
    · simp [processLines, hl, ih1, ih2]

/-- Witness for C6: a single malformed line with a decoder rejecting
everything. -/
theorem malformed_line_skipped_witness :
    (processLines (fun _ => none) ([] ++ "data: x" :: [])).1
        = (processLines (fun _ => none) ([] ++ [])).1
    ∧ (processLines (fun _ => none) ([] ++ "data: x" :: [])).2
        = (processLines (fun _ => none) ([] ++ [])).2 + 1 :=
  malformed_line_skipped (fun _ => none) [] [] "data: x" (by decide) rfl

/-- The canonical council-mode run for one request: stage starts and
completions in emission order, closed by the terminal `complete` event. -/
def councilRun (d1 d2 d3 : StageData) (meta2 : Option Metadata) : List StreamEvent :=
  [bareEvent EventType.stage1_start,
   stageCompleteEvent EventType.stage1_complete d1 none,
   bareEvent EventType.stage2_start,
   stageCompleteEvent EventType.stage2_complete d2 meta2,
   bareEvent EventType.stage3_start,
   stageCompleteEvent EventType.stage3_complete d3 none,
   bareEvent EventType.complete]

/-- The displayed conversation after the first `k` events of the council
run, starting from a trailing fresh assistant placeholder. -/
def councilState (cid : String) (ms : List MessageView) (mode : String)
    (model : Option String) (d1 d2 d3 : StageData) (meta2 : Option Metadata)
    (k : Nat) : ConversationView :=
  runEvents cid ((councilRun d1 d2 d3 meta2).take k)
    ⟨cid, ms ++ [assistantPlaceholder mode model]⟩

/-- C7: along the council run, `loading.stage1` of the trailing message is
true exactly at the state strictly between applying `stage1_start` (event
index 1) and `stage1_complete` (index 2), i.e. exactly after 1 event; and
likewise `loading.stage2` exactly after 3 events and `loading.stage3`
exactly after 5 events, for every prefix length `k ≤ 7` of the run. -/
theorem council_loading_lifecycle (cid : String) (ms : List MessageView)
    (mode : String) (model : Option String) (d1 d2 d3 : StageData)
    (meta2 : Option Metadata) (k : Nat) (hk : k ≤ 7) :
    ((councilState cid ms mode model d1 d2 d3 meta2 k).messages.getLast?.bind
        (fun mm => mm.loading.map LoadingFlags.stage1) = some (decide (k = 1)))
    ∧ ((councilState cid ms mode model d1 d2 d3 meta2 k).messages.getLast?.bind
        (fun mm => mm.loading.map LoadingFlags.stage2) = some (decide (k = 3)))
    ∧ ((councilState cid ms mode model d1 d2 d3 meta2 k).messages.getLast?.bind
        (fun mm => mm.loading.map LoadingFlags.stage3) = some (decide (k = 5))) := by
  interval_cases k <;>
    refine ⟨?_, ?_, ?_⟩ <;>
      simp [councilState, councilRun, runEvents_concat, msgRun, msgStep, bareEvent,
        stageCompleteEvent, assistantPlaceholder, isAssistant, isAssistantLoading,
        List.getLast?_concat]

/-- Witness for C7 at `k = 1` with concrete payloads. -/
theorem council_loading_lifecycle_witness :
    ((councilState "A" [] "council" none { response := none, model := none }
        { response := none, model := none } { response := none, model := none }
        none 1).messages.getLast?.bind
        (fun mm => mm.loading.map LoadingFlags.stage1) = some (decide (1 = 1)))
    ∧ ((councilState "A" [] "council" none { response := none, model := none }
        { response := none, model := none } { response := none, model := none }
        none 1).messages.getLast?.bind
        (fun mm => mm.loading.map LoadingFlags.stage2) = some (decide (1 = 3)))
    ∧ ((councilState "A" [] "council" none { response := none, model := none }
        { response := none, model := none } { response := none, model := none }
        none 1).messages.getLast?.bind
        (fun mm => mm.loading.map LoadingFlags.stage3) = some (decide (1 = 5))) :=
  council_loading_lifecycle "A" [] "council" none
    { response := none, model := none } { response := none, model := none }
    { response := none, model := none } none 1 (by decide)

/-- C8 counterexample: after the terminal `chat_complete` event of a chat
run, the trailing message's `loading` field is still the all-false record
inherited from the placeholder, not absent — the reducer's terminal cases
never null the `loading` field. -/
theorem terminal_loading_not_cleared_counterexample :
    ((dispatch "A" (chatCompleteEvent { response := some "done", model := some "m" })
        ⟨"A", [userMessage "hi", assistantPlaceholder "chat" none]⟩).messages.getLast?.bind
      MessageView.loading)
      = some { stage1 := false, stage2 := false, stage3 := false } := by
  decide

/-- C8 amended: once a message reaches a terminal state, its `loading`
field stays present: `chat_complete` leaves `loading` exactly as it was
and `stage3_complete` only lowers `loading.stage3` to false inside the
still-present record.  (`loading: null` is produced only by the
file-analysis path of `handleSendMessage`, not by the stream reducer.) -/
theorem terminal_event_keeps_loading (cid : String) (ms : List MessageView)
    (m : MessageView) (h : m.role = "assistant") (d : StageData) :
    ((dispatch cid (chatCompleteEvent d) ⟨cid, ms ++ [m]⟩).messages.getLast?.map
        MessageView.loading = some m.loading)
    ∧ ((dispatch cid (stageCompleteEvent EventType.stage3_complete d none)
        ⟨cid, ms ++ [m]⟩).messages.getLast?.map MessageView.loading
      = some (m.loading.map (fun l => { l with stage3 := false }))) := by
  constructor
  · rw [dispatch_concat]
    simp [List.getLast?_concat, msgStep, chatCompleteEvent, isAssistant, h]
  · rw [dispatch_concat]
    simp [List.getLast?_concat, msgStep, stageCompleteEvent, isAssistant, h]

/-- Witness for the amended C8. -/
theorem terminal_event_keeps_loading_witness :
    ((dispatch "A" (chatCompleteEvent { response := some "r", model := none })
        ⟨"A", [] ++ [assistantPlaceholder "chat" none]⟩).messages.getLast?.map
        MessageView.loading = some (assistantPlaceholder "chat" none).loading) :=
  (terminal_event_keeps_loading "A" [] (assistantPlaceholder "chat" none) rfl
    { response := some "r", model := none }).1

theorem mutateLast_frame (cid : String) (g : MessageView → Bool)
    (f : MessageView → MessageView) (c : ConversationView) :
    (mutateLast cid g f c).messages.length = c.messages.length
    ∧ (mutateLast cid g f c).messages.dropLast = c.messages.dropLast := by
  unfold mutateLast
  by_cases hid : c.id ≠ cid
  · simp [hid]
  · simp only [hid, if_false]
    cases hl : c.messages.getLast? with
    | none => exact ⟨rfl, rfl⟩
    | some m =>
      by_cases hg : g m = true
      · simp only [hg, if_true]
        have hne : c.messages ≠ [] := by
          intro h0
          rw [h0] at hl
          simp at hl
        have hpos : 0 < c.messages.length := List.length_pos.mpr hne
        constructor
        · simp only [List.length_append, List.length_dropLast, List.length_cons,
            List.length_nil]
          omega
        · exact List.dropLast_concat
      · simp [hg]

theorem mutateLast_guard_false (cid : String) (g : MessageView → Bool)
    (f : MessageView → MessageView) (c : ConversationView)
    (hg : ∀ m, c.messages.getLast? = some m → g m = false) :
    mutateLast cid g f c = c := by
  unfold mutateLast
  by_cases hid : c.id ≠ cid
  · simp [hid]
  · simp only [hid, if_false]
    cases hl : c.messages.getLast? with
    | none => rfl
    | some m => simp [hg m hl]

/-- C10: for every stream event, the reducer preserves the length and order
of `messages` and leaves every element except the last unchanged; and when
`messages` is empty or its last element is not an assistant message, the
reducer leaves the conversation entirely unchanged, whatever the event
type. -/
theorem reducer_touches_only_trailing_assistant (cid : String) (t : EventType)
    (e : StreamEvent) (c : ConversationView) :
    ((handleStreamEvent cid t e c).messages.length = c.messages.length
     ∧ (handleStreamEvent cid t e c).messages.dropLast = c.messages.dropLast)
    ∧ ((c.messages = [] ∨ ∃ m, c.messages.getLast? = some m ∧ m.role ≠ "assistant") →
        handleStreamEvent cid t e c = c) := by
  constructor
  · cases t <;>
      first
        | exact mutateLast_frame cid _ _ c
        | exact ⟨rfl, rfl⟩
  · intro h
    have hg : ∀ m, c.messages.getLast? = some m →
        (isAssistant m = false ∧ isAssistantLoading m = false) := by
      intro m hm
      rcases h with h0 | ⟨m2, hm2, hr⟩
      · rw [h0] at hm
        simp at hm
      · rw [hm2] at hm
        cases hm
        simp [isAssistant, isAssistantLoading, hr]
    cases t <;>
      first
        | rfl
        | exact mutateLast_guard_false cid _ _ c (fun m hm => (hg m hm).1)
        | exact mutateLast_guard_false cid _ _ c (fun m hm => (hg m hm).2)

/-- Witness for C10: a conversation whose trailing message is a user
message is untouched by a `chat_chunk` event, and the frame part holds
there too. -/
theorem reducer_touches_only_trailing_assistant_witness :
    handleStreamEvent "A" EventType.chat_chunk (chatChunkEvent "x")
        ⟨"A", [userMessage "hi"]⟩ = ⟨"A", [userMessage "hi"]⟩ :=
  (reducer_touches_only_trailing_assistant "A" EventType.chat_chunk
      (chatChunkEvent "x") ⟨"A", [userMessage "hi"]⟩).2
    (Or.inr ⟨userMessage "hi", by decide, by decide⟩)
